import Mathlib

/-!
Shallow embedding of the bookmark-converter program (Go, `main.go`):
Chrome bookmark JSON decoding (`parseBookmarks`), depth-first extraction of
url nodes (`extractBookmarks`), a SQLite-backed record store
(`initDB`, `saveBookmarksToDB`, `GetAllBookmarks`), console reporting
(`PrintBookmarks`) and the driver (`main`).

Go strings are modelled as Lean `String`; Go `len` and slicing are modelled
by `String.length` / `String.take` (Go counts bytes, which coincides with
character counts on ASCII data).  The SQLite table `bookmarks(name TEXT NOT
NULL, url TEXT NOT NULL PRIMARY KEY)` is modelled as a list of rows in rowid
order: `INSERT OR REPLACE` deletes any row with the conflicting primary key
and appends the fresh row at the end, which is also the order an unordered
`SELECT` returns.
-/

set_option autoImplicit false

/-- Go struct `BookmarkItem` (`main.go:36`): fields `DateAdded`, `ID`, `Name`,
`Type`, `URL`, `Children`.  An inductive because `Children` is recursive. -/
inductive BookmarkItem : Type where
  | mk (dateAdded id name type url : String) (children : List BookmarkItem)
deriving Repr

def BookmarkItem.dateAdded : BookmarkItem → String
  | .mk da _ _ _ _ _ => da

def BookmarkItem.id : BookmarkItem → String
  | .mk _ i _ _ _ _ => i

def BookmarkItem.name : BookmarkItem → String
  | .mk _ _ n _ _ _ => n

def BookmarkItem.type : BookmarkItem → String
  | .mk _ _ _ t _ _ => t

def BookmarkItem.url : BookmarkItem → String
  | .mk _ _ _ _ u _ => u

def BookmarkItem.children : BookmarkItem → List BookmarkItem
  | .mk _ _ _ _ _ cs => cs

/-- Go struct `BookmarkFolder` (`main.go:27`). -/
structure BookmarkFolder : Type where
  children : List BookmarkItem
  dateAdded : String
  dateModified : String
  id : String
  name : String
  type : String

/-- Go struct `Roots` (`main.go:21`). -/
structure Roots : Type where
  bookmarkBar : BookmarkFolder
  other : BookmarkFolder
  synced : BookmarkFolder

/-- Go struct `Bookmarks` (`main.go:15`). -/
structure Bookmarks : Type where
  roots : Roots
  version : Int
  checksum : String

/-- `extractBookmarks` (`main.go:112`): for each item in order, a `"url"` item
is appended to the result; a `"folder"` item with nonempty children is
recursively extracted and spliced in; anything else contributes nothing. -/
def extractBookmarks : List BookmarkItem → List BookmarkItem
  | [] => []
  | BookmarkItem.mk da i n t u cs :: rest =>
      (if t = "url" then [BookmarkItem.mk da i n t u cs]
       else if t = "folder" ∧ cs.length > 0 then extractBookmarks cs
       else [])
      ++ extractBookmarks rest

/-- Go struct `BookmarkRecord` (`main.go:176`): one row of the table. -/
structure BookmarkRecord : Type where
  name : String
  url : String
deriving Repr, DecidableEq

/-- The rows of the `bookmarks` table, in rowid order. -/
abbrev DBState := List BookmarkRecord

/-- The record a `BookmarkItem` is stored as: `stmt.Exec(bookmark.Name,
bookmark.URL)` (`main.go:139`). -/
def toRecord (b : BookmarkItem) : BookmarkRecord :=
  ⟨b.name, b.url⟩

/-- SQLite `INSERT OR REPLACE INTO bookmarks(name, url) VALUES(?, ?)` with
`url` the primary key (`main.go:131`): any row with the same `url` is
deleted and the fresh row is appended with a new rowid. -/
def insertOrReplace (s : DBState) (r : BookmarkRecord) : DBState :=
  s.filter (fun x => x.url ≠ r.url) ++ [r]

/-- The loop of `saveBookmarksToDB` (`main.go:138`), with each item paired
with the outcome of its `stmt.Exec`: `none` means success, `some e` a driver
error with message `e`.  On the first failure the wrapped error is returned
at once and the remaining items are not attempted; the rows written so far
stay in the database. -/
def saveBookmarksToDBRun : DBState → List (BookmarkItem × Option String) → DBState × Option String
  | s, [] => (s, none)
  | s, (_, some e) :: _ => (s, some ("ошибка вставки закладки: " ++ e))
  | s, (b, none) :: rest => saveBookmarksToDBRun (insertOrReplace s (toRecord b)) rest

/-- `saveBookmarksToDB` (`main.go:129`) including the `db.Prepare` step:
`prepErr` is the outcome of preparing the statement, and each item carries
the outcome of its own `Exec`. -/
def saveBookmarksToDB (prepErr : Option String) (s : DBState) (entries : List (BookmarkItem × Option String)) : DBState × Option String :=
  match prepErr with
  | some e => (s, some ("ошибка подготовки SQL запроса: " ++ e))
  | none => saveBookmarksToDBRun s entries

/-- The net effect on the rows of a sequence of successful
`INSERT OR REPLACE` statements, record by record in order. -/
def upsertAll (s : DBState) (rs : List BookmarkRecord) : DBState :=
  rs.foldl insertOrReplace s

/-- The error-free run of `saveBookmarksToDB`: every `Exec` succeeds. -/
def saveAll (s : DBState) (items : List BookmarkItem) : DBState :=
  upsertAll s (items.map toRecord)

/-- `GetAllBookmarks` (`main.go:149`): `SELECT name, url FROM bookmarks`
scanned row by row (rows come back in rowid order). -/
def GetAllBookmarks (s : DBState) : List BookmarkRecord :=
  s

/-- One column of a SQLite table schema. -/
structure SqlColumn : Type where
  colName : String
  colType : String
  notNull : Bool
  primaryKey : Bool
deriving Repr, DecidableEq

/-- The database file at a path: `none` while no table exists, otherwise the
schema and rows of the `bookmarks` table. -/
structure DBFile : Type where
  table : Option (List SqlColumn × DBState)
deriving Repr, DecidableEq

/-- The schema of `CREATE TABLE IF NOT EXISTS bookmarks (name TEXT NOT NULL,
url TEXT NOT NULL PRIMARY KEY)` (`main.go:96`). -/
def bookmarksSchema : List SqlColumn :=
  [⟨"name", "TEXT", true, false⟩, ⟨"url", "TEXT", true, true⟩]

/-- `initDB` (`main.go:80`): remove the database file if it exists, open a
connection (a fresh empty file now that it was removed), then
`CREATE TABLE IF NOT EXISTS`.  `prior` is whatever database file existed at
the path before the call, `none` if there was none. -/
def initDB (prior : Option DBFile) : DBFile :=
  let afterRemove : Option DBFile :=
    match prior with
    | some _ => none
    | none => none
  let opened : DBFile :=
    match afterRemove with
    | some f => f
    | none => ⟨none⟩
  match opened.table with
  | some t => ⟨some t⟩
  | none => ⟨some (bookmarksSchema, [])⟩

/-- The rows held by a database file (none while no table exists). -/
def DBFile.rows (f : DBFile) : DBState :=
  match f.table with
  | some (_, rs) => rs
  | none => []

/-- Replace the rows of the table, keeping its schema. -/
def DBFile.setRows (f : DBFile) (rs : DBState) : DBFile :=
  match f.table with
  | some (cols, _) => ⟨some (cols, rs)⟩
  | none => ⟨none⟩

/-- One run of the pipeline against the store, starting from whatever file
was at the path: `initDB`, then the error-free `saveBookmarksToDB` over
`items`, giving the resulting database file (`main.go:231` and 244). -/
def runStore (prior : Option DBFile) (items : List BookmarkItem) : DBFile :=
  (initDB prior).setRows (saveAll (initDB prior).rows items)

/-- Spec-side helper (§4.3, stated in the spec's own words): the `name` of
the last occurrence of `url` `u` in the batch, if any — a later occurrence
wins over an earlier one. -/
def lastNameFor : List BookmarkRecord → String → Option String
  | [], _ => none
  | r :: rest, u =>
      match lastNameFor rest u with
      | some n => some n
      | none => if r.url = u then some r.name else none

/-- Spec-side traversal (§4.2 of the spec, stated in the spec's own words):
depth-first, pre-order, left-to-right; a `url` node emits one record and is
not descended into; a `folder` node emits nothing and its children are
extracted in order; an unrecognized type contributes nothing. -/
def specUrlLeaves : List BookmarkItem → List BookmarkItem
  | [] => []
  | BookmarkItem.mk da i n t u cs :: rest =>
      (if t = "url" then [BookmarkItem.mk da i n t u cs]
       else if t = "folder" then specUrlLeaves cs
       else [])
      ++ specUrlLeaves rest

/-- Pad a string on the right with spaces to width `w`, the effect of Go's
`%-ws` verb (a longer string is left as is). -/
def padRight (s : String) (w : Nat) : String :=
  s ++ String.mk (List.replicate (w - s.length) ' ')

/-- Name shown by `PrintBookmarks` (`main.go:196`): names longer than 27 are
cut to their first 24 units followed by an ellipsis marker. -/
def truncName (n : String) : String :=
  if n.length > 27 then n.take 24 ++ "..." else n

/-- URL shown by `PrintBookmarks` (`main.go:201`): urls longer than 37 are
cut to their first 34 units followed by an ellipsis marker. -/
def truncUrl (u : String) : String :=
  if u.length > 37 then u.take 34 ++ "..." else u

/-- One table row printed by `PrintBookmarks` (`main.go:205`),
`fmt.Printf("| %-30s | %-40s |\n", name, url)` after truncation. -/
def bookmarkLine (b : BookmarkRecord) : String :=
  "| " ++ padRight (truncName b.name) 30 ++ " | " ++ padRight (truncUrl b.url) 40 ++ " |"

/-- The horizontal rule printed between sections (`main.go:189`). -/
def ruleLine : String :=
  "-----------------------------------------------------------------------"

/-- The lines written by the success path of `PrintBookmarks`
(`main.go:182`) on a database whose rows are `s`: header, one formatted
line per stored record, a rule, and the total count line. -/
def printBookmarksLines (s : DBState) : List String :=
  ["Список закладок:", ruleLine,
    "| " ++ padRight "Название" 30 ++ " | " ++ padRight "URL" 40 ++ " |", ruleLine]
  ++ (GetAllBookmarks s).map bookmarkLine
  ++ [ruleLine, "Всего закладок: " ++ toString (GetAllBookmarks s).length]

/-- `extractBookmarks` over the three roots, concatenated in the order of
`main.go:239`–241: bookmark bar, then other, then synced. -/
def allBookmarksOf (b : Bookmarks) : List BookmarkItem :=
  extractBookmarks b.roots.bookmarkBar.children
  ++ extractBookmarks b.roots.other.children
  ++ extractBookmarks b.roots.synced.children

/-- Which steps of `main` (`main.go:214`) succeed in a given run: resolving
the bookmarks path, parsing the file, `initDB`, `saveBookmarksToDB`, and
`PrintBookmarks`. -/
structure RunOutcome : Type where
  pathOk : Bool
  parseOk : Bool
  initOk : Bool
  saveOk : Bool
  printOk : Bool
deriving Repr, DecidableEq

/-- Observable resource events of one run of `main`. -/
inductive RunEvent : Type where
  | closeDB
  | fatalStop
  | normalStop
deriving Repr, DecidableEq

/-- The resource events of `main` (`main.go:214`) in order.  Each `log.Fatalf`
is `os.Exit(1)`, which terminates the process WITHOUT running deferred
calls; `defer db.Close()` (`main.go:235`) therefore runs only when `main`
returns normally.  A failing `PrintBookmarks` only logs (`log.Printf`,
`main.go:254`) and falls through to the normal return. -/
def mainEvents (o : RunOutcome) : List RunEvent :=
  if o.pathOk = false then [RunEvent.fatalStop]
  else if o.parseOk = false then [RunEvent.fatalStop]
  else if o.initOk = false then [RunEvent.fatalStop]
  else if o.saveOk = false then [RunEvent.fatalStop]
  else [RunEvent.closeDB, RunEvent.normalStop]

/-- How many times `db.Close()` runs in the run described by `o`. -/
def closeCount (o : RunOutcome) : Nat :=
  (mainEvents o).count RunEvent.closeDB

/-!
JSON decoding.  `parseBookmarks` (`main.go:64`) is `os.ReadFile` followed by
`json.Unmarshal(data, &bookmarks)`.  The bytes are modelled up to JSON
well-formedness: input is an `Option Json`, `none` standing for bytes that
are not well-formed JSON (a syntax error from `encoding/json`).  Numbers are
modelled as integers (the only numeric field is `Version int`).

`json.Unmarshal` semantics for the struct types of `main.go`, as modelled:
a JSON object decodes into a struct by walking its keys in order; a key
matching a field tag (Go matches exactly or case-insensitively; modelled as
ASCII-case-insensitive equality with the lowercase tags) decodes its value
into that field, an unknown key is skipped; a missing key leaves the field
at its current (zero) value and is no error.  `null` is no error anywhere:
it leaves string, int and struct destinations unchanged and sets a slice
destination to nil.  A value of any other wrong kind for the destination is
an unmarshalling type error.
-/

/-- A JSON document. -/
inductive Json : Type where
  | null
  | bool (b : Bool)
  | num (n : Int)
  | str (s : String)
  | arr (elems : List Json)
  | obj (fields : List (String × Json))
deriving Repr

/-- ASCII lower-casing of one character, the fold Go applies when matching
struct-tag names case-insensitively. -/
def asciiLower (c : Char) : Char :=
  if 'A' ≤ c ∧ c ≤ 'Z' then Char.ofNat (c.toNat + 32) else c

/-- ASCII lower-casing of a key. -/
def asciiLowerStr (s : String) : String :=
  String.mk (s.data.map asciiLower)

/-- Whether input key `k` selects the struct field tagged `tag` (Go matches
the tag exactly or case-insensitively; the tags here are all lowercase and
ASCII, so the match is lower-cased equality). -/
def keyMatches (k tag : String) : Bool :=
  asciiLowerStr k == tag

/-- Zero value of `BookmarkItem`. -/
def zeroItem : BookmarkItem :=
  BookmarkItem.mk "" "" "" "" "" []

/-- Zero value of `BookmarkFolder`. -/
def zeroFolder : BookmarkFolder :=
  ⟨[], "", "", "", "", ""⟩

/-- Zero value of `Roots`. -/
def zeroRoots : Roots :=
  ⟨zeroFolder, zeroFolder, zeroFolder⟩

/-- Zero value of `Bookmarks`. -/
def zeroBookmarks : Bookmarks :=
  ⟨zeroRoots, 0, ""⟩

def BookmarkItem.setDateAdded : BookmarkItem → String → BookmarkItem
  | .mk _ i n t u cs, da => .mk da i n t u cs

def BookmarkItem.setId : BookmarkItem → String → BookmarkItem
  | .mk da _ n t u cs, i => .mk da i n t u cs

def BookmarkItem.setName : BookmarkItem → String → BookmarkItem
  | .mk da i _ t u cs, n => .mk da i n t u cs

def BookmarkItem.setType : BookmarkItem → String → BookmarkItem
  | .mk da i n _ u cs, t => .mk da i n t u cs

def BookmarkItem.setUrl : BookmarkItem → String → BookmarkItem
  | .mk da i n t _ cs, u => .mk da i n t u cs

def BookmarkItem.setChildren : BookmarkItem → List BookmarkItem → BookmarkItem
  | .mk da i n t u _, cs => .mk da i n t u cs

/-- Decode a JSON value into a string destination currently holding `cur`:
a string replaces it, `null` leaves it, any other kind is a type error. -/
def goDecodeString (cur : String) : Json → Except String String
  | Json.null => .ok cur
  | Json.str s => .ok s
  | _ => .error "cannot unmarshal into Go value of type string"

/-- Decode a JSON value into an int destination currently holding `cur`. -/
def goDecodeInt (cur : Int) : Json → Except String Int
  | Json.null => .ok cur
  | Json.num n => .ok n
  | _ => .error "cannot unmarshal into Go value of type int"

mutual

/-- Decode a JSON value into a `BookmarkItem` destination holding `b`. -/
def decodeItemInto : BookmarkItem → Json → Except String BookmarkItem
  | b, Json.null => .ok b
  | b, Json.obj fs => decodeItemFields b fs
  | _, _ => .error "cannot unmarshal into Go value of type main.BookmarkItem"

/-- Walk the keys of a JSON object in order, decoding each into the matching
field of the `BookmarkItem`; unknown keys are skipped. -/
def decodeItemFields : BookmarkItem → List (String × Json) → Except String BookmarkItem
  | b, [] => .ok b
  | b, (k, v) :: rest =>
      if keyMatches k "date_added" then
        match goDecodeString b.dateAdded v with
        | .ok s => decodeItemFields (b.setDateAdded s) rest
        | .error e => .error e
      else if keyMatches k "id" then
        match goDecodeString b.id v with
        | .ok s => decodeItemFields (b.setId s) rest
        | .error e => .error e
      else if keyMatches k "name" then
        match goDecodeString b.name v with
        | .ok s => decodeItemFields (b.setName s) rest
        | .error e => .error e
      else if keyMatches k "type" then
        match goDecodeString b.type v with
        | .ok s => decodeItemFields (b.setType s) rest
        | .error e => .error e
      else if keyMatches k "url" then
        match goDecodeString b.url v with
        | .ok s => decodeItemFields (b.setUrl s) rest
        | .error e => .error e
      else if keyMatches k "children" then
        match decodeItemList v with
        | .ok cs => decodeItemFields (b.setChildren cs) rest
        | .error e => .error e
      else
        decodeItemFields b rest

/-- Decode a JSON value into a `[]BookmarkItem` destination: `null` sets the
slice to nil, an array decodes element-wise, anything else is a type error. -/
def decodeItemList : Json → Except String (List BookmarkItem)
  | Json.null => .ok []
  | Json.arr es => decodeItemArr es
  | _ => .error "cannot unmarshal into Go value of type []main.BookmarkItem"

/-- Decode the elements of a JSON array into fresh `BookmarkItem` slots. -/
def decodeItemArr : List Json → Except String (List BookmarkItem)
  | [] => .ok []
  | j :: rest =>
      match decodeItemInto zeroItem j with
      | .error e => .error e
      | .ok b =>
          match decodeItemArr rest with
          | .error e => .error e
          | .ok bs => .ok (b :: bs)

end

/-- Walk the keys of a JSON object in order, decoding each into the matching
field of the `BookmarkFolder`; unknown keys are skipped. -/
def decodeFolderFields : BookmarkFolder → List (String × Json) → Except String BookmarkFolder
  | f, [] => .ok f
  | f, (k, v) :: rest =>
      if keyMatches k "children" then
        match decodeItemList v with
        | .ok cs => decodeFolderFields { f with children := cs } rest
        | .error e => .error e
      else if keyMatches k "date_added" then
        match goDecodeString f.dateAdded v with
        | .ok s => decodeFolderFields { f with dateAdded := s } rest
        | .error e => .error e
      else if keyMatches k "date_modified" then
        match goDecodeString f.dateModified v with
        | .ok s => decodeFolderFields { f with dateModified := s } rest
        | .error e => .error e
      else if keyMatches k "id" then
        match goDecodeString f.id v with
        | .ok s => decodeFolderFields { f with id := s } rest
        | .error e => .error e
      else if keyMatches k "name" then
        match goDecodeString f.name v with
        | .ok s => decodeFolderFields { f with name := s } rest
        | .error e => .error e
      else if keyMatches k "type" then
        match goDecodeString f.type v with
        | .ok s => decodeFolderFields { f with type := s } rest
        | .error e => .error e
      else
        decodeFolderFields f rest

/-- Decode a JSON value into a `BookmarkFolder` destination holding `f`. -/
def decodeFolderInto (f : BookmarkFolder) : Json → Except String BookmarkFolder
  | Json.null => .ok f
  | Json.obj fs => decodeFolderFields f fs
  | _ => .error "cannot unmarshal into Go value of type main.BookmarkFolder"

/-- Walk the keys of a JSON object in order, decoding each into the matching
field of the `Roots`; unknown keys are skipped. -/
def decodeRootsFields : Roots → List (String × Json) → Except String Roots
  | r, [] => .ok r
  | r, (k, v) :: rest =>
      if keyMatches k "bookmark_bar" then
        match decodeFolderInto r.bookmarkBar v with
        | .ok f => decodeRootsFields { r with bookmarkBar := f } rest
        | .error e => .error e
      else if keyMatches k "other" then
        match decodeFolderInto r.other v with
        | .ok f => decodeRootsFields { r with other := f } rest
        | .error e => .error e
      else if keyMatches k "synced" then
        match decodeFolderInto r.synced v with
        | .ok f => decodeRootsFields { r with synced := f } rest
        | .error e => .error e
      else
        decodeRootsFields r rest

/-- Decode a JSON value into a `Roots` destination holding `r`. -/
def decodeRootsInto (r : Roots) : Json → Except String Roots
  | Json.null => .ok r
  | Json.obj fs => decodeRootsFields r fs
  | _ => .error "cannot unmarshal into Go value of type main.Roots"

/-- Walk the keys of a JSON object in order, decoding each into the matching
field of the `Bookmarks`; unknown keys are skipped. -/
def decodeBookmarksFields : Bookmarks → List (String × Json) → Except String Bookmarks
  | b, [] => .ok b
  | b, (k, v) :: rest =>
      if keyMatches k "roots" then
        match decodeRootsInto b.roots v with
        | .ok r => decodeBookmarksFields { b with roots := r } rest
        | .error e => .error e
      else if keyMatches k "version" then
        match goDecodeInt b.version v with
        | .ok n => decodeBookmarksFields { b with version := n } rest
        | .error e => .error e
      else if keyMatches k "checksum" then
        match goDecodeString b.checksum v with
        | .ok s => decodeBookmarksFields { b with checksum := s } rest
        | .error e => .error e
      else
        decodeBookmarksFields b rest

/-- Decode a JSON value into a `Bookmarks` destination holding `b`, the
top-level `json.Unmarshal(data, &bookmarks)`. -/
def decodeBookmarksInto (b : Bookmarks) : Json → Except String Bookmarks
  | Json.null => .ok b
  | Json.obj fs => decodeBookmarksFields b fs
  | _ => .error "cannot unmarshal into Go value of type main.Bookmarks"

/-- `parseBookmarks` (`main.go:64`): read the file and unmarshal it into a
zero `Bookmarks`.  The input is the file content up to JSON well-formedness:
`none` stands for bytes that are not well-formed JSON. -/
def parseBookmarks (data : Option Json) : Except String Bookmarks :=
  match data with
  | none => .error "ошибка парсинга JSON: invalid character"
  | some j =>
      match decodeBookmarksInto zeroBookmarks j with
      | .ok b => .ok b
      | .error e => .error ("ошибка парсинга JSON: " ++ e)

/-!
Spec-side shape predicates (§4.1 of the spec, stated in the spec's own
words): a document conforms to the expected nested-object shape when every
present known field has the right type; missing fields and unknown fields
impose nothing.  Used to characterize exactly when decoding fails.
-/

/-- Spec-side: values acceptable for a string field. -/
def stringShaped : Json → Bool
  | Json.null => true
  | Json.str _ => true
  | _ => false

/-- Spec-side: values acceptable for an int field. -/
def intShaped : Json → Bool
  | Json.null => true
  | Json.num _ => true
  | _ => false

mutual

/-- Spec-side: values acceptable for a `BookmarkItem` field. -/
def itemShaped : Json → Bool
  | Json.null => true
  | Json.obj fs => itemFieldsShaped fs
  | _ => false

/-- Spec-side: every present known field of a node object has the right
type; unknown fields impose nothing. -/
def itemFieldsShaped : List (String × Json) → Bool
  | [] => true
  | (k, v) :: rest =>
      (if keyMatches k "date_added" then stringShaped v
       else if keyMatches k "id" then stringShaped v
       else if keyMatches k "name" then stringShaped v
       else if keyMatches k "type" then stringShaped v
       else if keyMatches k "url" then stringShaped v
       else if keyMatches k "children" then itemListShaped v
       else true)
      && itemFieldsShaped rest

/-- Spec-side: values acceptable for a children sequence. -/
def itemListShaped : Json → Bool
  | Json.null => true
  | Json.arr es => itemArrShaped es
  | _ => false

/-- Spec-side: every element of a children array is node-shaped. -/
def itemArrShaped : List Json → Bool
  | [] => true
  | j :: rest => itemShaped j && itemArrShaped rest

end

/-- Spec-side: every present known field of a folder object has the right
type; unknown fields impose nothing. -/
def folderFieldsShaped : List (String × Json) → Bool
  | [] => true
  | (k, v) :: rest =>
      (if keyMatches k "children" then itemListShaped v
       else if keyMatches k "date_added" then stringShaped v
       else if keyMatches k "date_modified" then stringShaped v
       else if keyMatches k "id" then stringShaped v
       else if keyMatches k "name" then stringShaped v
       else if keyMatches k "type" then stringShaped v
       else true)
      && folderFieldsShaped rest

/-- Spec-side: values acceptable for a folder field. -/
def folderShaped : Json → Bool
  | Json.null => true
  | Json.obj fs => folderFieldsShaped fs
  | _ => false

/-- Spec-side: every present known field of the roots object has the right
type; unknown fields impose nothing. -/
def rootsFieldsShaped : List (String × Json) → Bool
  | [] => true
  | (k, v) :: rest =>
      (if keyMatches k "bookmark_bar" then folderShaped v
       else if keyMatches k "other" then folderShaped v
       else if keyMatches k "synced" then folderShaped v
       else true)
      && rootsFieldsShaped rest

/-- Spec-side: values acceptable for the roots field. -/
def rootsShaped : Json → Bool
  | Json.null => true
  | Json.obj fs => rootsFieldsShaped fs
  | _ => false

/-- Spec-side: every present known field of the top-level object has the
right type; unknown fields impose nothing. -/
def bookmarksFieldsShaped : List (String × Json) → Bool
  | [] => true
  | (k, v) :: rest =>
      (if keyMatches k "roots" then rootsShaped v
       else if keyMatches k "version" then intShaped v
       else if keyMatches k "checksum" then stringShaped v
       else true)
      && bookmarksFieldsShaped rest

/-- Spec-side: documents that conform to the expected nested-object shape
(missing fields tolerated, unknown fields ignored). -/
def bookmarksShaped : Json → Bool
  | Json.null => true
  | Json.obj fs => bookmarksFieldsShaped fs
  | _ => false

/-- Whether input key `k` selects any known top-level field of `Bookmarks`. -/
def knownBookmarksKey (k : String) : Bool :=
  keyMatches k "roots" || keyMatches k "version" || keyMatches k "checksum"

/-- A concrete parsed bookmark file: the bar and the synced root each hold
one url leaf, and the same url occurs under both. -/
def sampleBookmarks : Bookmarks :=
  ⟨⟨⟨[BookmarkItem.mk "13" "10" "B1" "url" "http://x" []], "13", "13", "1",
      "Панель закладок", "folder"⟩,
    ⟨[], "13", "13", "2", "Прочие закладки", "folder"⟩,
    ⟨[BookmarkItem.mk "13" "11" "B2" "url" "http://x" []], "13", "13", "3",
      "Синхронизированные", "folder"⟩⟩,
   1, "abc"⟩

/-!
Helper lemmas about the store model.
-/

theorem mem_insertOrReplace {s : DBState} {r x : BookmarkRecord} :
    x ∈ insertOrReplace s r ↔ (x ∈ s ∧ x.url ≠ r.url) ∨ x = r := by
  simp [insertOrReplace, List.mem_filter, List.mem_append]

theorem keys_nodup_insertOrReplace {s : DBState} (r : BookmarkRecord)
    (h : (s.map BookmarkRecord.url).Nodup) :
    ((insertOrReplace s r).map BookmarkRecord.url).Nodup := by
  unfold insertOrReplace
  rw [List.map_append, List.nodup_append]
  refine ⟨((List.filter_sublist s).map BookmarkRecord.url).nodup h, by simp, ?_⟩
  intro u hu
  simp only [List.mem_map, List.mem_filter] at hu
  obtain ⟨x, ⟨_, hx⟩, rfl⟩ := hu
  simp only [decide_eq_true_eq] at hx
  simp [hx]

theorem upsertAll_nil (s : DBState) : upsertAll s [] = s := rfl

theorem upsertAll_cons (s : DBState) (r : BookmarkRecord) (rs : List BookmarkRecord) :
    upsertAll s (r :: rs) = upsertAll (insertOrReplace s r) rs := rfl

theorem keys_nodup_upsertAll (rs : List BookmarkRecord) :
    ∀ s : DBState, (s.map BookmarkRecord.url).Nodup →
      ((upsertAll s rs).map BookmarkRecord.url).Nodup := by
  induction rs with
  | nil => intro s h; exact h
  | cons r rs ih =>
      intro s h
      rw [upsertAll_cons]
      exact ih _ (keys_nodup_insertOrReplace r h)

theorem lastNameFor_eq_none_iff (rs : List BookmarkRecord) (u : String) :
    lastNameFor rs u = none ↔ u ∉ rs.map BookmarkRecord.url := by
  induction rs with
  | nil => simp [lastNameFor]
  | cons r rs ih =>
      simp only [lastNameFor, List.map_cons, List.mem_cons]
      cases h : lastNameFor rs u with
      | some n =>
          have : u ∈ rs.map BookmarkRecord.url := by
            by_contra hu
            rw [← ih] at hu
            simp [h] at hu
          simp [this]
      | none =>
          have hu : u ∉ rs.map BookmarkRecord.url := ih.mp h
          by_cases hru : r.url = u
          · simp [hru, hu]
          · have hur : ¬u = r.url := fun hh => hru hh.symm
            simp [hru, hu, hur]

theorem lastNameFor_cons_some {rs : List BookmarkRecord} {u : String} {n : String}
    (r : BookmarkRecord) (h : lastNameFor rs u = some n) :
    lastNameFor (r :: rs) u = some n := by
  simp [lastNameFor, h]

theorem lastNameFor_cons_none {rs : List BookmarkRecord} {u : String}
    (r : BookmarkRecord) (h : lastNameFor rs u = none) :
    lastNameFor (r :: rs) u = if r.url = u then some r.name else none := by
  simp [lastNameFor, h]

theorem mem_upsertAll (rs : List BookmarkRecord) :
    ∀ (s : DBState) (x : BookmarkRecord),
      x ∈ upsertAll s rs ↔
        lastNameFor rs x.url = some x.name
        ∨ (lastNameFor rs x.url = none ∧ x ∈ s) := by
  induction rs with
  | nil => intro s x; simp [upsertAll, lastNameFor]
  | cons r rs ih =>
      intro s x
      rw [upsertAll_cons, ih]
      cases h : lastNameFor rs x.url with
      | some n => rw [lastNameFor_cons_some r h]; simp
      | none =>
          rw [lastNameFor_cons_none r h]
          by_cases hru : r.url = x.url
          · rw [if_pos hru]
            rw [mem_insertOrReplace]
            cases x with
            | mk xn xu =>
                cases r with
                | mk rn ru =>
                    have hru' : ru = xu := hru
                    subst hru'
                    simp [BookmarkRecord.mk.injEq, eq_comm]
          · rw [if_neg hru]
            rw [mem_insertOrReplace]
            have hxr : x ≠ r := fun hh => hru (by rw [hh])
            have hxu : x.url ≠ r.url := fun hh => hru hh.symm
            simp [hxr, hxu]

theorem keys_upsertAll_nil (rs : List BookmarkRecord) (u : String) :
    u ∈ (upsertAll [] rs).map BookmarkRecord.url ↔ u ∈ rs.map BookmarkRecord.url := by
  constructor
  · intro hu
    obtain ⟨x, hx, rfl⟩ := List.mem_map.mp hu
    rcases (mem_upsertAll rs [] x).mp hx with h | ⟨-, h⟩
    · by_contra hmem
      rw [← lastNameFor_eq_none_iff] at hmem
      simp [h] at hmem
    · cases h
  · intro hu
    cases hn : lastNameFor rs u with
    | none => exact absurd ((lastNameFor_eq_none_iff rs u).mp hn) (by simp [hu])
    | some n =>
        have hx : (⟨n, u⟩ : BookmarkRecord) ∈ upsertAll [] rs :=
          (mem_upsertAll rs [] ⟨n, u⟩).mpr (Or.inl hn)
        exact List.mem_map.mpr ⟨⟨n, u⟩, hx, rfl⟩

theorem initDB_const (prior : Option DBFile) :
    initDB prior = ⟨some (bookmarksSchema, [])⟩ := by
  cases prior <;> rfl

theorem runStore_rows (prior : Option DBFile) (items : List BookmarkItem) :
    (runStore prior items).rows = upsertAll [] (items.map toRecord) := by
  rw [runStore, initDB_const]
  rfl

theorem keys_map_toRecord (items : List BookmarkItem) :
    (items.map toRecord).map BookmarkRecord.url = items.map BookmarkItem.url := by
  rw [List.map_map]
  rfl

theorem extractBookmarks_eq_spec (items : List BookmarkItem) :
    extractBookmarks items = specUrlLeaves items := by
  induction items using extractBookmarks.induct with
  | case1 => simp [extractBookmarks, specUrlLeaves]
  | case2 da i n t u cs rest ihcs ihrest =>
      rw [extractBookmarks, specUrlLeaves, ihrest]
      by_cases hu : t = "url"
      · simp [hu]
      · by_cases hf : t = "folder"
        · cases cs with
          | nil => simp [hu, hf, specUrlLeaves]
          | cons c cs => simp [hu, hf, ihcs]
        · simp [hu, hf]

/-- C1: for every input sequence of nodes, `extractBookmarks` returns
exactly the url-type leaves reachable from the sequence in depth-first,
pre-order, left-to-right order (the spec-side traversal `specUrlLeaves`),
with no folder-derived entries and no deduplication; a url node contributes
exactly one record, placed before the results of its right siblings, and
its children are never descended into; extract of the empty sequence is the
empty sequence. -/
theorem C1_extract_is_dfs_url_leaves :
    (∀ items, extractBookmarks items = specUrlLeaves items) ∧
    extractBookmarks [] = [] ∧
    (∀ da i n u cs rest,
      extractBookmarks (BookmarkItem.mk da i n "url" u cs :: rest)
        = BookmarkItem.mk da i n "url" u cs :: extractBookmarks rest) := by
  refine ⟨extractBookmarks_eq_spec, by simp [extractBookmarks], ?_⟩
  intro da i n u cs rest
  rw [extractBookmarks]
  simp

/-- C6: a node of type `folder` with an empty children sequence, and a node
whose type is neither `"folder"` nor `"url"`, contribute no records and
raise no error (extraction is total), regardless of the other fields. -/
theorem C6_empty_folder_and_unknown_type_skipped :
    (∀ da i n u rest,
      extractBookmarks (BookmarkItem.mk da i n "folder" u [] :: rest)
        = extractBookmarks rest) ∧
    (∀ da i n t u cs rest, t ≠ "folder" → t ≠ "url" →
      extractBookmarks (BookmarkItem.mk da i n t u cs :: rest)
        = extractBookmarks rest) := by
  constructor
  · intro da i n u rest
    rw [extractBookmarks]
    simp
  · intro da i n t u cs rest hf hu
    rw [extractBookmarks]
    simp [hf, hu]

/-- Witness for C6 at a concrete unrecognized-type node. -/
theorem C6_witness :
    extractBookmarks
        [BookmarkItem.mk "13" "9" "n" "link" "http://a"
          [BookmarkItem.mk "13" "10" "m" "url" "http://b" []]]
      = extractBookmarks [] :=
  C6_empty_folder_and_unknown_type_skipped.2 "13" "9" "n" "link" "http://a"
    [BookmarkItem.mk "13" "10" "m" "url" "http://b" []] []
    (by decide) (by decide)

/-- C10: extraction does not validate the url field: a node whose type is
exactly `"url"` is emitted even when its url is the empty string, and the
empty string then reaches the store as a stored key; type matching is exact
and case-sensitive, so nodes typed `"URL"` or `"Url"` contribute nothing. -/
theorem C10_no_url_validation_exact_type_match :
    (∀ da i n cs rest,
      extractBookmarks (BookmarkItem.mk da i n "url" "" cs :: rest)
        = BookmarkItem.mk da i n "url" "" cs :: extractBookmarks rest) ∧
    (∀ prior da i n,
      (runStore prior (extractBookmarks [BookmarkItem.mk da i n "url" "" []])).rows
        = [⟨n, ""⟩]) ∧
    (∀ da i n u cs rest,
      extractBookmarks (BookmarkItem.mk da i n "URL" u cs :: rest)
        = extractBookmarks rest) ∧
    (∀ da i n u cs rest,
      extractBookmarks (BookmarkItem.mk da i n "Url" u cs :: rest)
        = extractBookmarks rest) := by
  refine ⟨?_, ?_, ?_, ?_⟩
  · intro da i n cs rest
    rw [extractBookmarks]
    simp
  · intro prior da i n
    rw [extractBookmarks, extractBookmarks]
    rw [runStore_rows]
    simp [upsertAll, insertOrReplace, toRecord, BookmarkItem.name, BookmarkItem.url]
  · intro da i n u cs rest
    rw [extractBookmarks]
    simp
  · intro da i n u cs rest
    rw [extractBookmarks]
    simp

/-- C8: `saveBookmarksToDB` is non-atomic and per-record, stopping at the
first failure: once the statement is prepared, if the insert of some record
fails, the wrapped error is returned at once, the earlier successful
inserts remain in the store, and the remaining records are not attempted
(the result does not depend on them); if every insert succeeds no error is
returned and every record is upserted in order. -/
theorem C8_save_non_atomic_first_failure :
    (∀ (s : DBState) (p : List BookmarkItem) (r : BookmarkItem) (e : String)
        (tail : List (BookmarkItem × Option String)),
      saveBookmarksToDB none s
          (p.map (fun b => (b, (none : Option String))) ++ (r, some e) :: tail)
        = (upsertAll s (p.map toRecord), some ("ошибка вставки закладки: " ++ e))) ∧
    (∀ (s : DBState) (items : List BookmarkItem),
      saveBookmarksToDB none s (items.map (fun b => (b, (none : Option String))))
        = (upsertAll s (items.map toRecord), none)) ∧
    (∀ (s : DBState) (e : String) (entries : List (BookmarkItem × Option String)),
      saveBookmarksToDB (some e) s entries
        = (s, some ("ошибка подготовки SQL запроса: " ++ e))) := by
  have hnone : ∀ (s : DBState) (entries : List (BookmarkItem × Option String)),
      saveBookmarksToDB none s entries = saveBookmarksToDBRun s entries := fun _ _ => rfl
  refine ⟨?_, ?_, ?_⟩
  · intro s p
    induction p generalizing s with
    | nil => intro r e tail; rfl
    | cons b p ih =>
        intro r e tail
        rw [hnone]
        simp only [List.map_cons, List.cons_append]
        rw [saveBookmarksToDBRun]
        rw [show ∀ q : List BookmarkRecord, upsertAll s (toRecord b :: q)
              = upsertAll (insertOrReplace s (toRecord b)) q from fun q => rfl]
        rw [← hnone]
        exact ih (insertOrReplace s (toRecord b)) r e tail
  · intro s items
    induction items generalizing s with
    | nil => rfl
    | cons b items ih =>
        rw [hnone]
        simp only [List.map_cons]
        rw [saveBookmarksToDBRun]
        rw [show upsertAll s (toRecord b :: items.map toRecord)
              = upsertAll (insertOrReplace s (toRecord b)) (items.map toRecord) from rfl]
        rw [← hnone]
        exact ih (insertOrReplace s (toRecord b))
  · intro s e entries
    rfl

/-- C2: after `initDB` then `saveBookmarksToDB` then `GetAllBookmarks`, the
distinct urls returned are exactly the distinct urls of the batch, every
url appears in the result exactly once (the url column is duplicate-free),
and the name paired with each url is the name of that url's last occurrence
in the batch, in the batch's own order. -/
theorem C2_store_dedup_last_wins (prior : Option DBFile) (items : List BookmarkItem) :
    (∀ u, u ∈ (GetAllBookmarks (runStore prior items).rows).map BookmarkRecord.url
        ↔ u ∈ items.map BookmarkItem.url) ∧
    ((GetAllBookmarks (runStore prior items).rows).map BookmarkRecord.url).Nodup ∧
    (∀ r ∈ GetAllBookmarks (runStore prior items).rows,
      lastNameFor (items.map toRecord) r.url = some r.name) := by
  have hrows : GetAllBookmarks (runStore prior items).rows
      = upsertAll [] (items.map toRecord) := runStore_rows prior items
  refine ⟨?_, ?_, ?_⟩
  · intro u
    rw [hrows, keys_upsertAll_nil, keys_map_toRecord]
  · rw [hrows]
    exact keys_nodup_upsertAll _ [] (by simp)
  · intro r hr
    rw [hrows] at hr
    rcases (mem_upsertAll _ [] r).mp hr with h | ⟨-, h⟩
    · exact h
    · cases h

/-- Witness for C2 at the spec's worked example: upserting X1 then X2 under
the same url leaves exactly the record named X2. -/
theorem C2_witness :
    ((⟨"X2", "http://x"⟩ : BookmarkRecord)
        ∈ GetAllBookmarks (runStore none
            [BookmarkItem.mk "13" "1" "X1" "url" "http://x" [],
             BookmarkItem.mk "13" "2" "X2" "url" "http://x" []]).rows) ∧
    lastNameFor ([BookmarkItem.mk "13" "1" "X1" "url" "http://x" [],
        BookmarkItem.mk "13" "2" "X2" "url" "http://x" []].map toRecord) "http://x"
      = some "X2" := by
  constructor
  · decide
  · exact (C2_store_dedup_last_wins none
      [BookmarkItem.mk "13" "1" "X1" "url" "http://x" [],
       BookmarkItem.mk "13" "2" "X2" "url" "http://x" []]).2.2
      ⟨"X2", "http://x"⟩ (by decide)

/-- C3: `initDB` has drop-then-create semantics: whatever file was at the
path before, the result is a fresh empty table whose schema is
`(name TEXT NOT NULL, url TEXT NOT NULL PRIMARY KEY)` with `url` the only
primary-key column; hence running init → upsert → query twice in a row
with the same batch returns the same rows, and the rows after a run hold
only urls from that run's input. -/
theorem C3_drop_then_create (prior : Option DBFile) (items : List BookmarkItem) :
    initDB prior = ⟨some (bookmarksSchema, [])⟩ ∧
    bookmarksSchema.map SqlColumn.colName = ["name", "url"] ∧
    (bookmarksSchema.all fun c => c.notNull && (c.colType == "TEXT")) = true ∧
    ((bookmarksSchema.filter fun c => c.primaryKey).map SqlColumn.colName) = ["url"] ∧
    GetAllBookmarks (runStore (some (runStore prior items)) items).rows
      = GetAllBookmarks (runStore prior items).rows ∧
    (∀ r ∈ (runStore prior items).rows, r.url ∈ items.map BookmarkItem.url) := by
  refine ⟨initDB_const prior, by decide, by decide, by decide, ?_, ?_⟩
  · rw [runStore_rows, runStore_rows]
  · intro r hr
    rw [runStore_rows] at hr
    rcases (mem_upsertAll _ [] r).mp hr with h | ⟨-, h⟩
    · rw [← keys_map_toRecord]
      by_contra hm
      rw [← lastNameFor_eq_none_iff] at hm
      rw [h] at hm
      cases hm
    · cases h

/-- Witness for C3: a pre-existing store with an unrelated row is wiped,
and the row surviving the run comes from the run's own input. -/
theorem C3_witness :
    ((⟨"A", "http://a"⟩ : BookmarkRecord)
        ∈ (runStore (some ⟨some (bookmarksSchema, [⟨"old", "http://old"⟩])⟩)
            [BookmarkItem.mk "13" "1" "A" "url" "http://a" []]).rows) ∧
    "http://a" ∈ ([BookmarkItem.mk "13" "1" "A" "url" "http://a" []].map BookmarkItem.url) := by
  constructor
  · decide
  · exact (C3_drop_then_create
      (some ⟨some (bookmarksSchema, [⟨"old", "http://old"⟩])⟩)
      [BookmarkItem.mk "13" "1" "A" "url" "http://a" []]).2.2.2.2.2
      ⟨"A", "http://a"⟩ (by decide)

/-- C9: the driver extracts the three roots independently, concatenates the
results in the fixed order bookmark bar, other, synced, and upserts exactly
that concatenated sequence into the fresh store; the stored rows are the
last-occurrence-wins result over that concatenation order. -/
theorem C9_driver_concat_order (prior : Option DBFile) (b : Bookmarks) :
    allBookmarksOf b
      = extractBookmarks b.roots.bookmarkBar.children
        ++ extractBookmarks b.roots.other.children
        ++ extractBookmarks b.roots.synced.children ∧
    (runStore prior (allBookmarksOf b)).rows
      = upsertAll [] ((allBookmarksOf b).map toRecord) ∧
    (∀ r ∈ (runStore prior (allBookmarksOf b)).rows,
      lastNameFor ((allBookmarksOf b).map toRecord) r.url = some r.name) := by
  refine ⟨rfl, runStore_rows prior _, ?_⟩
  intro r hr
  rw [runStore_rows] at hr
  rcases (mem_upsertAll _ [] r).mp hr with h | ⟨-, h⟩
  · exact h
  · cases h

/-- Witness for C9: the same url under the bar and the synced root keeps
the name from the synced occurrence, the later one in concatenation order. -/
theorem C9_witness :
    ((⟨"B2", "http://x"⟩ : BookmarkRecord)
        ∈ (runStore none (allBookmarksOf sampleBookmarks)).rows) ∧
    lastNameFor ((allBookmarksOf sampleBookmarks).map toRecord) "http://x"
      = some "B2" := by
  have hitems : allBookmarksOf sampleBookmarks
      = [BookmarkItem.mk "13" "10" "B1" "url" "http://x" [],
         BookmarkItem.mk "13" "11" "B2" "url" "http://x" []] := by
    simp [allBookmarksOf, sampleBookmarks, extractBookmarks]
  have hmem : (⟨"B2", "http://x"⟩ : BookmarkRecord)
      ∈ (runStore none (allBookmarksOf sampleBookmarks)).rows := by
    rw [runStore_rows, hitems]
    decide
  exact ⟨hmem, (C9_driver_concat_order none sampleBookmarks).2.2 ⟨"B2", "http://x"⟩ hmem⟩

/-- C5 (code bug): once `initDB` has succeeded, `main` runs `db.Close()`
exactly once on the normal path and when only `PrintBookmarks` fails, but a
`saveBookmarksToDB` failure exits through `log.Fatalf` — `os.Exit(1)` —
which skips the deferred `db.Close()`, so no close happens on that exit
path, against the claim. -/
theorem C5_fatal_save_skips_close :
    closeCount ⟨true, true, true, false, true⟩ = 0 ∧
    closeCount ⟨true, true, true, true, true⟩ = 1 ∧
    closeCount ⟨true, true, true, true, false⟩ = 1 := by
  decide

/-- C7: on success the driver prints one formatted line per stored record;
a name of more than 27 units is cut to its first 24 followed by the
ellipsis marker and a url of more than 37 units is cut to its first 34
followed by the marker, while shorter ones print unchanged; the listing is
followed by a total count line equal to the number of stored records. -/
theorem C7_print_truncation_and_count (s : DBState) :
    printBookmarksLines s
      = ["Список закладок:", ruleLine,
          "| " ++ padRight "Название" 30 ++ " | " ++ padRight "URL" 40 ++ " |", ruleLine]
        ++ s.map bookmarkLine
        ++ [ruleLine, "Всего закладок: " ++ toString s.length] ∧
    (∀ r : BookmarkRecord, bookmarkLine r
        = "| " ++ padRight (truncName r.name) 30 ++ " | "
          ++ padRight (truncUrl r.url) 40 ++ " |") ∧
    (∀ n : String, n.length ≤ 27 → truncName n = n) ∧
    (∀ n : String, n.length > 27 → truncName n = n.take 24 ++ "...") ∧
    (∀ u : String, u.length ≤ 37 → truncUrl u = u) ∧
    (∀ u : String, u.length > 37 → truncUrl u = u.take 34 ++ "...") := by
  refine ⟨rfl, fun r => rfl, ?_, ?_, ?_, ?_⟩
  · intro n h
    simp only [truncName]
    rw [if_neg (by omega)]
  · intro n h
    simp only [truncName]
    rw [if_pos h]
  · intro u h
    simp only [truncUrl]
    rw [if_neg (by omega)]
  · intro u h
    simp only [truncUrl]
    rw [if_pos h]

/-- Witness for C7: a 9-unit name prints unchanged, a 28-unit name is cut
to 24 units plus the ellipsis marker. -/
theorem C7_witness :
    ("Valentina".length ≤ 27 ∧ truncName "Valentina" = "Valentina") ∧
    ("abcdefghijklmnopqrstuvwxyz01".length > 27 ∧
      truncName "abcdefghijklmnopqrstuvwxyz01"
        = "abcdefghijklmnopqrstuvwxyz01".take 24 ++ "...") := by
  constructor
  · exact ⟨by decide, (C7_print_truncation_and_count []).2.2.1 "Valentina" (by decide)⟩
  · exact ⟨by decide, (C7_print_truncation_and_count []).2.2.2.1
      "abcdefghijklmnopqrstuvwxyz01" (by decide)⟩

/-!
Decoding succeeds exactly on shaped input.
-/

theorem goDecodeString_ok (cur : String) (v : Json) :
    (goDecodeString cur v).isOk = stringShaped v := by
  cases v <;> rfl

theorem goDecodeInt_ok (cur : Int) (v : Json) :
    (goDecodeInt cur v).isOk = intShaped v := by
  cases v <;> rfl

theorem decodeItem_ok_upto (m : Nat) :
    (∀ (b : BookmarkItem) (j : Json), sizeOf j ≤ m →
        (decodeItemInto b j).isOk = itemShaped j) ∧
    (∀ (b : BookmarkItem) (fs : List (String × Json)), sizeOf fs ≤ m →
        (decodeItemFields b fs).isOk = itemFieldsShaped fs) ∧
    (∀ j : Json, sizeOf j ≤ m → (decodeItemList j).isOk = itemListShaped j) ∧
    (∀ es : List Json, sizeOf es ≤ m → (decodeItemArr es).isOk = itemArrShaped es) := by
  induction m using Nat.strong_induction_on with
  | _ m ih =>
      refine ⟨?_, ?_, ?_, ?_⟩
      · intro b j hj
        cases j with
        | null => rfl
        | bool x => rfl
        | num x => rfl
        | str x => rfl
        | arr es => rfl
        | obj fs =>
            have hlt : sizeOf fs < m := by
              simp only [Json.obj.sizeOf_spec] at hj
              omega
            have hsub := (ih (sizeOf fs) hlt).2.1 b fs le_rfl
            simpa [decodeItemInto, itemShaped] using hsub
      · intro b fs hfs
        cases fs with
        | nil => rfl
        | cons kv rest =>
            obtain ⟨k, v⟩ := kv
            have hrest : sizeOf rest < m := by
              simp only [List.cons.sizeOf_spec, Prod.mk.sizeOf_spec] at hfs
              omega
            have hv : sizeOf v < m := by
              simp only [List.cons.sizeOf_spec, Prod.mk.sizeOf_spec] at hfs
              omega
            have hfields : ∀ b' : BookmarkItem,
                (decodeItemFields b' rest).isOk = itemFieldsShaped rest :=
              fun b' => (ih (sizeOf rest) hrest).2.1 b' rest le_rfl
            have hlist : (decodeItemList v).isOk = itemListShaped v :=
              (ih (sizeOf v) hv).2.2.1 v le_rfl
            simp only [decodeItemFields, itemFieldsShaped]
            by_cases h1 : keyMatches k "date_added"
            · simp only [h1, if_true]
              cases hx : goDecodeString b.dateAdded v with
              | ok s =>
                  have hws := goDecodeString_ok b.dateAdded v
                  rw [hx] at hws
                  have hsv : stringShaped v = true := by rw [← hws]; rfl
                  simp [hsv, hfields (b.setDateAdded s)]
              | error e =>
                  have hws := goDecodeString_ok b.dateAdded v
                  rw [hx] at hws
                  have hsv : stringShaped v = false := by rw [← hws]; rfl
                  simp [hsv, Except.isOk, Except.toBool]
            · simp only [h1, Bool.false_eq_true, if_false]
              by_cases h2 : keyMatches k "id"
              · simp only [h2, if_true]
                cases hx : goDecodeString b.id v with
                | ok s =>
                    have hws := goDecodeString_ok b.id v
                    rw [hx] at hws
                    have hsv : stringShaped v = true := by rw [← hws]; rfl
                    simp [hsv, hfields (b.setId s)]
                | error e =>
                    have hws := goDecodeString_ok b.id v
                    rw [hx] at hws
                    have hsv : stringShaped v = false := by rw [← hws]; rfl
                    simp [hsv, Except.isOk, Except.toBool]
              · simp only [h2, Bool.false_eq_true, if_false]
                by_cases h3 : keyMatches k "name"
                · simp only [h3, if_true]
                  cases hx : goDecodeString b.name v with
                  | ok s =>
                      have hws := goDecodeString_ok b.name v
                      rw [hx] at hws
                      have hsv : stringShaped v = true := by rw [← hws]; rfl
                      simp [hsv, hfields (b.setName s)]
                  | error e =>
                      have hws := goDecodeString_ok b.name v
                      rw [hx] at hws
                      have hsv : stringShaped v = false := by rw [← hws]; rfl
                      simp [hsv, Except.isOk, Except.toBool]
                · simp only [h3, Bool.false_eq_true, if_false]
                  by_cases h4 : keyMatches k "type"
                  · simp only [h4, if_true]
                    cases hx : goDecodeString b.type v with
                    | ok s =>
                        have hws := goDecodeString_ok b.type v
                        rw [hx] at hws
                        have hsv : stringShaped v = true := by rw [← hws]; rfl
                        simp [hsv, hfields (b.setType s)]
                    | error e =>
                        have hws := goDecodeString_ok b.type v
                        rw [hx] at hws
                        have hsv : stringShaped v = false := by rw [← hws]; rfl
                        simp [hsv, Except.isOk, Except.toBool]
                  · simp only [h4, Bool.false_eq_true, if_false]
                    by_cases h5 : keyMatches k "url"
                    · simp only [h5, if_true]
                      cases hx : goDecodeString b.url v with
                      | ok s =>
                          have hws := goDecodeString_ok b.url v
                          rw [hx] at hws
                          have hsv : stringShaped v = true := by rw [← hws]; rfl
                          simp [hsv, hfields (b.setUrl s)]
                      | error e =>
                          have hws := goDecodeString_ok b.url v
                          rw [hx] at hws
                          have hsv : stringShaped v = false := by rw [← hws]; rfl
                          simp [hsv, Except.isOk, Except.toBool]
                    · simp only [h5, Bool.false_eq_true, if_false]
                      by_cases h6 : keyMatches k "children"
                      · simp only [h6, if_true]
                        cases hx : decodeItemList v with
                        | ok cs =>
                            rw [hx] at hlist
                            have hsv : itemListShaped v = true := by rw [← hlist]; rfl
                            simp [hsv, hfields (b.setChildren cs)]
                        | error e =>
                            rw [hx] at hlist
                            have hsv : itemListShaped v = false := by rw [← hlist]; rfl
                            simp [hsv, Except.isOk, Except.toBool]
                      · simp only [h6, Bool.false_eq_true, if_false, Bool.true_and]
                        exact hfields b
      · intro j hj
        cases j with
        | null => rfl
        | bool x => rfl
        | num x => rfl
        | str x => rfl
        | obj fs => rfl
        | arr es =>
            have hlt : sizeOf es < m := by
              simp only [Json.arr.sizeOf_spec] at hj
              omega
            have hsub := (ih (sizeOf es) hlt).2.2.2 es le_rfl
            simpa [decodeItemList, itemListShaped] using hsub
      · intro es hes
        cases es with
        | nil => rfl
        | cons j rest =>
            have hj : sizeOf j < m := by
              simp only [List.cons.sizeOf_spec] at hes
              omega
            have hrest : sizeOf rest < m := by
              simp only [List.cons.sizeOf_spec] at hes
              omega
            have hhead : (decodeItemInto zeroItem j).isOk = itemShaped j :=
              (ih (sizeOf j) hj).1 zeroItem j le_rfl
            have htail : (decodeItemArr rest).isOk = itemArrShaped rest :=
              (ih (sizeOf rest) hrest).2.2.2 rest le_rfl
            simp only [decodeItemArr, itemArrShaped]
            cases hx : decodeItemInto zeroItem j with
            | error e =>
                rw [hx] at hhead
                have hs1 : itemShaped j = false := by rw [← hhead]; rfl
                simp [hs1, Except.isOk, Except.toBool]
            | ok bb =>
                rw [hx] at hhead
                have hs1 : itemShaped j = true := by rw [← hhead]; rfl
                cases hy : decodeItemArr rest with
                | error e =>
                    rw [hy] at htail
                    have hs2 : itemArrShaped rest = false := by rw [← htail]; rfl
                    simp [hs1, hs2, Except.isOk, Except.toBool]
                | ok bs =>
                    rw [hy] at htail
                    have hs2 : itemArrShaped rest = true := by rw [← htail]; rfl
                    simp [hs1, hs2, Except.isOk, Except.toBool]

theorem decodeItemList_ok (j : Json) :
    (decodeItemList j).isOk = itemListShaped j :=
  (decodeItem_ok_upto (sizeOf j)).2.2.1 j le_rfl

theorem decodeFolderFields_ok :
    ∀ (fs : List (String × Json)) (f : BookmarkFolder),
      (decodeFolderFields f fs).isOk = folderFieldsShaped fs := by
  intro fs
  induction fs with
  | nil => intro f; rfl
  | cons kv rest ih =>
      obtain ⟨k, v⟩ := kv
      intro f
      simp only [decodeFolderFields, folderFieldsShaped]
      by_cases h1 : keyMatches k "children"
      · simp only [h1, if_true]
        cases hx : decodeItemList v with
        | ok cs =>
            have hws := decodeItemList_ok v
            rw [hx] at hws
            have hsv : itemListShaped v = true := by rw [← hws]; rfl
            simp [hsv, ih]
        | error e =>
            have hws := decodeItemList_ok v
            rw [hx] at hws
            have hsv : itemListShaped v = false := by rw [← hws]; rfl
            simp [hsv, Except.isOk, Except.toBool]
      · simp only [h1, Bool.false_eq_true, if_false]
        by_cases h2 : keyMatches k "date_added"
        · simp only [h2, if_true]
          cases hx : goDecodeString f.dateAdded v with
          | ok s =>
              have hws := goDecodeString_ok f.dateAdded v
              rw [hx] at hws
              have hsv : stringShaped v = true := by rw [← hws]; rfl
              simp [hsv, ih]
          | error e =>
              have hws := goDecodeString_ok f.dateAdded v
              rw [hx] at hws
              have hsv : stringShaped v = false := by rw [← hws]; rfl
              simp [hsv, Except.isOk, Except.toBool]
        · simp only [h2, Bool.false_eq_true, if_false]
          by_cases h3 : keyMatches k "date_modified"
          · simp only [h3, if_true]
            cases hx : goDecodeString f.dateModified v with
            | ok s =>
                have hws := goDecodeString_ok f.dateModified v
                rw [hx] at hws
                have hsv : stringShaped v = true := by rw [← hws]; rfl
                simp [hsv, ih]
            | error e =>
                have hws := goDecodeString_ok f.dateModified v
                rw [hx] at hws
                have hsv : stringShaped v = false := by rw [← hws]; rfl
                simp [hsv, Except.isOk, Except.toBool]
          · simp only [h3, Bool.false_eq_true, if_false]
            by_cases h4 : keyMatches k "id"
            · simp only [h4, if_true]
              cases hx : goDecodeString f.id v with
              | ok s =>
                  have hws := goDecodeString_ok f.id v
                  rw [hx] at hws
                  have hsv : stringShaped v = true := by rw [← hws]; rfl
                  simp [hsv, ih]
              | error e =>
                  have hws := goDecodeString_ok f.id v
                  rw [hx] at hws
                  have hsv : stringShaped v = false := by rw [← hws]; rfl
                  simp [hsv, Except.isOk, Except.toBool]
            · simp only [h4, Bool.false_eq_true, if_false]
              by_cases h5 : keyMatches k "name"
              · simp only [h5, if_true]
                cases hx : goDecodeString f.name v with
                | ok s =>
                    have hws := goDecodeString_ok f.name v
                    rw [hx] at hws
                    have hsv : stringShaped v = true := by rw [← hws]; rfl
                    simp [hsv, ih]
                | error e =>
                    have hws := goDecodeString_ok f.name v
                    rw [hx] at hws
                    have hsv : stringShaped v = false := by rw [← hws]; rfl
                    simp [hsv, Except.isOk, Except.toBool]
              · simp only [h5, Bool.false_eq_true, if_false]
                by_cases h6 : keyMatches k "type"
                · simp only [h6, if_true]
                  cases hx : goDecodeString f.type v with
                  | ok s =>
                      have hws := goDecodeString_ok f.type v
                      rw [hx] at hws
                      have hsv : stringShaped v = true := by rw [← hws]; rfl
                      simp [hsv, ih]
                  | error e =>
                      have hws := goDecodeString_ok f.type v
                      rw [hx] at hws
                      have hsv : stringShaped v = false := by rw [← hws]; rfl
                      simp [hsv, Except.isOk, Except.toBool]
                · simp only [h6, Bool.false_eq_true, if_false, Bool.true_and]
                  exact ih f

theorem decodeFolderInto_ok (f : BookmarkFolder) (j : Json) :
    (decodeFolderInto f j).isOk = folderShaped j := by
  cases j with
  | obj fs => exact decodeFolderFields_ok fs f
  | null => rfl
  | bool x => rfl
  | num x => rfl
  | str x => rfl
  | arr es => rfl

theorem decodeRootsFields_ok :
    ∀ (fs : List (String × Json)) (r : Roots),
      (decodeRootsFields r fs).isOk = rootsFieldsShaped fs := by
  intro fs
  induction fs with
  | nil => intro r; rfl
  | cons kv rest ih =>
      obtain ⟨k, v⟩ := kv
      intro r
      simp only [decodeRootsFields, rootsFieldsShaped]
      by_cases h1 : keyMatches k "bookmark_bar"
      · simp only [h1, if_true]
        cases hx : decodeFolderInto r.bookmarkBar v with
        | ok f =>
            have hws := decodeFolderInto_ok r.bookmarkBar v
            rw [hx] at hws
            have hsv : folderShaped v = true := by rw [← hws]; rfl
            simp [hsv, ih]
        | error e =>
            have hws := decodeFolderInto_ok r.bookmarkBar v
            rw [hx] at hws
            have hsv : folderShaped v = false := by rw [← hws]; rfl
            simp [hsv, Except.isOk, Except.toBool]
      · simp only [h1, Bool.false_eq_true, if_false]
        by_cases h2 : keyMatches k "other"
        · simp only [h2, if_true]
          cases hx : decodeFolderInto r.other v with
          | ok f =>
              have hws := decodeFolderInto_ok r.other v
              rw [hx] at hws
              have hsv : folderShaped v = true := by rw [← hws]; rfl
              simp [hsv, ih]
          | error e =>
              have hws := decodeFolderInto_ok r.other v
              rw [hx] at hws
              have hsv : folderShaped v = false := by rw [← hws]; rfl
              simp [hsv, Except.isOk, Except.toBool]
        · simp only [h2, Bool.false_eq_true, if_false]
          by_cases h3 : keyMatches k "synced"
          · simp only [h3, if_true]
            cases hx : decodeFolderInto r.synced v with
            | ok f =>
                have hws := decodeFolderInto_ok r.synced v
                rw [hx] at hws
                have hsv : folderShaped v = true := by rw [← hws]; rfl
                simp [hsv, ih]
            | error e =>
                have hws := decodeFolderInto_ok r.synced v
                rw [hx] at hws
                have hsv : folderShaped v = false := by rw [← hws]; rfl
                simp [hsv, Except.isOk, Except.toBool]
          · simp only [h3, Bool.false_eq_true, if_false, Bool.true_and]
            exact ih r

theorem decodeRootsInto_ok (r : Roots) (j : Json) :
    (decodeRootsInto r j).isOk = rootsShaped j := by
  cases j with
  | obj fs => exact decodeRootsFields_ok fs r
  | null => rfl
  | bool x => rfl
  | num x => rfl
  | str x => rfl
  | arr es => rfl

theorem decodeBookmarksFields_ok :
    ∀ (fs : List (String × Json)) (b : Bookmarks),
      (decodeBookmarksFields b fs).isOk = bookmarksFieldsShaped fs := by
  intro fs
  induction fs with
  | nil => intro b; rfl
  | cons kv rest ih =>
      obtain ⟨k, v⟩ := kv
      intro b
      simp only [decodeBookmarksFields, bookmarksFieldsShaped]
      by_cases h1 : keyMatches k "roots"
      · simp only [h1, if_true]
        cases hx : decodeRootsInto b.roots v with
        | ok r =>
            have hws := decodeRootsInto_ok b.roots v
            rw [hx] at hws
            have hsv : rootsShaped v = true := by rw [← hws]; rfl
            simp [hsv, ih]
        | error e =>
            have hws := decodeRootsInto_ok b.roots v
            rw [hx] at hws
            have hsv : rootsShaped v = false := by rw [← hws]; rfl
            simp [hsv, Except.isOk, Except.toBool]
      · simp only [h1, Bool.false_eq_true, if_false]
        by_cases h2 : keyMatches k "version"
        · simp only [h2, if_true]
          cases hx : goDecodeInt b.version v with
          | ok n =>
              have hws := goDecodeInt_ok b.version v
              rw [hx] at hws
              have hsv : intShaped v = true := by rw [← hws]; rfl
              simp [hsv, ih]
          | error e =>
              have hws := goDecodeInt_ok b.version v
              rw [hx] at hws
              have hsv : intShaped v = false := by rw [← hws]; rfl
              simp [hsv, Except.isOk, Except.toBool]
        · simp only [h2, Bool.false_eq_true, if_false]
          by_cases h3 : keyMatches k "checksum"
          · simp only [h3, if_true]
            cases hx : goDecodeString b.checksum v with
            | ok s =>
                have hws := goDecodeString_ok b.checksum v
                rw [hx] at hws
                have hsv : stringShaped v = true := by rw [← hws]; rfl
                simp [hsv, ih]
            | error e =>
                have hws := goDecodeString_ok b.checksum v
                rw [hx] at hws
                have hsv : stringShaped v = false := by rw [← hws]; rfl
                simp [hsv, Except.isOk, Except.toBool]
          · simp only [h3, Bool.false_eq_true, if_false, Bool.true_and]
            exact ih b

theorem decodeBookmarksInto_ok (b : Bookmarks) (j : Json) :
    (decodeBookmarksInto b j).isOk = bookmarksShaped j := by
  cases j with
  | obj fs => exact decodeBookmarksFields_ok fs b
  | null => rfl
  | bool x => rfl
  | num x => rfl
  | str x => rfl
  | arr es => rfl

theorem parseBookmarks_ok (j : Json) :
    (parseBookmarks (some j)).isOk = bookmarksShaped j := by
  have hb := decodeBookmarksInto_ok zeroBookmarks j
  simp only [parseBookmarks]
  cases hx : decodeBookmarksInto zeroBookmarks j with
  | ok b =>
      rw [hx] at hb
      rw [← hb]
  | error e =>
      rw [hx] at hb
      rw [← hb]
      rfl

/-- C4 (counterexample): a JSON object with every field missing — including
`roots` — decodes without error to the zero value, so missing required
fields do NOT make `parseBookmarks` fail as the claim states. -/
theorem C4_counterexample_missing_fields_accepted :
    parseBookmarks (some (Json.obj [])) = Except.ok zeroBookmarks ∧
    (parseBookmarks (some (Json.obj []))).isOk = true := by
  constructor <;> rfl

/-- C4 (amended): `parseBookmarks` fails exactly when the input is not
well-formed JSON or some present field has a value of the wrong type
(`bookmarksShaped`); missing fields are tolerated — they keep their zero
values — and unknown or extra fields are ignored rather than rejected:
walking the keys, an unknown key is skipped with no effect at all. -/
theorem C4_decode_error_characterization :
    (∀ j : Json, (parseBookmarks (some j)).isOk = bookmarksShaped j) ∧
    (parseBookmarks none).isOk = false ∧
    (∀ (b : Bookmarks) (k : String) (v : Json) (rest : List (String × Json)),
      knownBookmarksKey k = false →
      decodeBookmarksFields b ((k, v) :: rest) = decodeBookmarksFields b rest) := by
  refine ⟨parseBookmarks_ok, rfl, ?_⟩
  intro b k v rest hk
  simp only [knownBookmarksKey, Bool.or_eq_false_iff] at hk
  simp only [decodeBookmarksFields, hk.1.1, hk.1.2, hk.2, Bool.false_eq_true, if_false]

/-- Witness for C4 at a concrete unknown field: the key `custom` matches no
known tag and is skipped without effect. -/
theorem C4_witness :
    knownBookmarksKey "custom" = false ∧
    decodeBookmarksFields zeroBookmarks [("custom", Json.num 5)]
      = decodeBookmarksFields zeroBookmarks [] :=
  ⟨by decide, C4_decode_error_characterization.2.2 zeroBookmarks "custom" (Json.num 5) []
    (by decide)⟩
